import Mathlib

/-!
Shallow embedding of the digger DNS tool core (dig output parser, response
model, command builder, process-result handling, query history store),
translated from the Python sources in src/digger/backend.  Machine strings
are modelled as Lean strings restricted to ASCII behaviour; exceptions are
modelled with an explicit Except monad so that catch clauses of the source
are visible in the embedding.
-/

/-- ASCII whitespace recognised by Python str.strip and by the regex
class backslash-s (space, tab, newline, carriage return, vertical tab,
form feed). -/
def isPySpace (c : Char) : Bool :=
  c = ' ' || c = '\t' || c = '\n' || c = '\r' || c = '\x0b' || c = '\x0c'

/-- List-level form of Python str.strip: drop whitespace at both ends. -/
def pyStripList (l : List Char) : List Char :=
  ((l.dropWhile isPySpace).reverse.dropWhile isPySpace).reverse

/-- Python str.strip for ASCII whitespace. -/
def pyStrip (s : String) : String :=
  ⟨pyStripList s.data⟩

/-- Python str.lower on a single ASCII character. -/
def pyLowerChar (c : Char) : Char :=
  match c with
  | 'A' => 'a' | 'B' => 'b' | 'C' => 'c' | 'D' => 'd' | 'E' => 'e' | 'F' => 'f'
  | 'G' => 'g' | 'H' => 'h' | 'I' => 'i' | 'J' => 'j' | 'K' => 'k' | 'L' => 'l'
  | 'M' => 'm' | 'N' => 'n' | 'O' => 'o' | 'P' => 'p' | 'Q' => 'q' | 'R' => 'r'
  | 'S' => 's' | 'T' => 't' | 'U' => 'u' | 'V' => 'v' | 'W' => 'w' | 'X' => 'x'
  | 'Y' => 'y' | 'Z' => 'z'
  | c => c

/-- Python str.upper on a single ASCII character. -/
def pyUpperChar (c : Char) : Char :=
  match c with
  | 'a' => 'A' | 'b' => 'B' | 'c' => 'C' | 'd' => 'D' | 'e' => 'E' | 'f' => 'F'
  | 'g' => 'G' | 'h' => 'H' | 'i' => 'I' | 'j' => 'J' | 'k' => 'K' | 'l' => 'L'
  | 'm' => 'M' | 'n' => 'N' | 'o' => 'O' | 'p' => 'P' | 'q' => 'Q' | 'r' => 'R'
  | 's' => 'S' | 't' => 'T' | 'u' => 'U' | 'v' => 'V' | 'w' => 'W' | 'x' => 'X'
  | 'y' => 'Y' | 'z' => 'Z'
  | c => c

/-- Python str.lower (ASCII). -/
def pyLower (s : String) : String :=
  ⟨s.data.map pyLowerChar⟩

/-- Python str.upper (ASCII). -/
def pyUpper (s : String) : String :=
  ⟨s.data.map pyUpperChar⟩

/-- Python s.rstrip with a dot argument: drop trailing dots. -/
def rstripDot (s : String) : String :=
  ⟨(s.data.reverse.dropWhile (· = '.')).reverse⟩

/-- Does the pattern occur at the head of the list (used for anchored
literal matching). -/
def leadsWithL {α : Type} [DecidableEq α] : List α → List α → Bool
  | [], _ => true
  | _ :: _, [] => false
  | p :: ps, h :: hs => p = h && leadsWithL ps hs

/-- Does the pattern occur anywhere in the haystack (Python in operator
on strings, at the character-list level). -/
def hasSubstrL {α : Type} [DecidableEq α] (pat : List α) : List α → Bool
  | [] => leadsWithL pat []
  | h :: hs => leadsWithL pat (h :: hs) || hasSubstrL pat hs

/-- Python substring containment: pat in hay. -/
def hasSubstrS (hay pat : String) : Bool :=
  hasSubstrL pat.data hay.data

/-- Python str.split(None, 1): skip leading whitespace, take the first
whitespace-free token, then the remainder with its own leading whitespace
removed (kept verbatim otherwise); empty and all-whitespace strings give
the empty list. -/
def pySplitOnce (s : String) : List String :=
  let l := s.data.dropWhile isPySpace
  match l with
  | [] => []
  | _ =>
    let tok := l.takeWhile (fun c => !isPySpace c)
    let rest := (l.dropWhile (fun c => !isPySpace c)).dropWhile isPySpace
    match rest with
    | [] => [⟨tok⟩]
    | _ => [⟨tok⟩, ⟨rest⟩]

/-- Accumulator for Python int literal parsing: digits with single
underscores strictly between digits. -/
def pyDigitsAux : Bool → Nat → List Char → Option Nat
  | prevDigit, acc, [] => if prevDigit then some acc else none
  | prevDigit, acc, c :: rest =>
    if c.isDigit then pyDigitsAux true (acc * 10 + (c.toNat - 48)) rest
    else if c = '_' && prevDigit then pyDigitsAux false acc rest
    else none

/-- Python int(str) on ASCII input: surrounding whitespace allowed, an
optional sign, then digits with optional single underscores between
digits; anything else fails (ValueError). -/
def pyIntParse (s : String) : Option Int :=
  let l := pyStripList s.data
  let signAndRest : Int × List Char :=
    match l with
    | '+' :: rest => (1, rest)
    | '-' :: rest => (-1, rest)
    | _ => (1, l)
  match pyDigitsAux false 0 signAndRest.2 with
  | some n => some (signAndRest.1 * (n : Int))
  | none => none

/-- Python exception kinds that the translated code can raise or catch.
pydantic ValidationError is a subclass of ValueError in pydantic v2, so
except clauses naming ValueError catch it; TypeError is included to keep
catch clauses honest (they do not catch it). -/
inductive PyExc
  | valueError
  | keyError
  | validationError
  | typeError
deriving DecidableEq, Repr

/-- models.py RecordType: closed enumeration of supported DNS record
types. -/
inductive RecordType
  | A
  | AAAA
  | CNAME
  | MX
  | NS
  | SOA
  | TXT
deriving DecidableEq, Repr

/-- The string code of a RecordType (the enum value in models.py). -/
def RecordType.value : RecordType → String
  | .A => "A"
  | .AAAA => "AAAA"
  | .CNAME => "CNAME"
  | .MX => "MX"
  | .NS => "NS"
  | .SOA => "SOA"
  | .TXT => "TXT"

/-- Lookup of a record-type string in the enumeration. -/
def recordTypeOfString (s : String) : Option RecordType :=
  if s = "A" then some .A
  else if s = "AAAA" then some .AAAA
  else if s = "CNAME" then some .CNAME
  else if s = "MX" then some .MX
  else if s = "NS" then some .NS
  else if s = "SOA" then some .SOA
  else if s = "TXT" then some .TXT
  else none

/-- Python RecordType(s): raises ValueError when the string is not a
member of the enumeration. -/
def mkRecordTypeE (s : String) : Except PyExc RecordType :=
  match recordTypeOfString s with
  | some t => .ok t
  | none => .error .valueError

/-- Python int(s) as an Except computation: ValueError on failure. -/
def pyIntE (s : String) : Except PyExc Int :=
  match pyIntParse s with
  | some n => .ok n
  | none => .error .valueError

/-- MX-specific extra fields of models.py MXRecord. -/
structure MXData where
  priority : Int
  mail_server : String
deriving DecidableEq, Repr

/-- models.py DNSRecord (with the MXRecord subclass represented by the
optional mxData component). -/
structure DNSRecord where
  name : String
  ttl : Int
  record_class : String
  record_type : RecordType
  value : String
  mxData : Option MXData := none
deriving DecidableEq, Repr

/-- pydantic construction of DNSRecord: the name and value validators
strip trailing dots, the ttl validator raises (ValidationError, a
ValueError subclass) on negative ttl. -/
def mkDNSRecord (name : String) (ttl : Int) (cls : String) (rt : RecordType)
    (value : String) : Except PyExc DNSRecord :=
  if ttl < 0 then .error .validationError
  else .ok ⟨rstripDot name, ttl, cls, rt, rstripDot value, none⟩

/-- pydantic construction of MXRecord: inherits the trailing-dot
validators, raises on negative ttl or negative priority, and strips the
trailing dot of the mail server. -/
def mkMXRecord (name : String) (ttl : Int) (cls : String) (priority : Int)
    (mailServer : String) (value : String) : Except PyExc DNSRecord :=
  if ttl < 0 then .error .validationError
  else if priority < 0 then .error .validationError
  else .ok ⟨rstripDot name, ttl, cls, .MX, rstripDot value,
            some ⟨priority, rstripDot mailServer⟩⟩

/-- The record regex of dig_parser.py applied to one line: name (non
whitespace run), ttl (digit run), class (IN, CH or HS), type (word-char
run), value (the remainder), each pair separated by whitespace.  The one
backtracking case of the regex (a line ending in whitespace, where the
whitespace run before the value gives up its final character) is handled
explicitly; parse never produces such lines because it strips each line
first. -/
def matchRecordLine (l : List Char) :
    Option (String × String × String × String × String) :=
  let name := l.takeWhile (fun c => !isPySpace c)
  let r1 := l.dropWhile (fun c => !isPySpace c)
  if name = [] then none else
  let w1 := r1.takeWhile isPySpace
  let r2 := r1.dropWhile isPySpace
  if w1 = [] then none else
  let ttl := r2.takeWhile Char.isDigit
  let r3 := r2.dropWhile Char.isDigit
  if ttl = [] then none else
  let w2 := r3.takeWhile isPySpace
  let r4 := r3.dropWhile isPySpace
  if w2 = [] then none else
  match r4 with
  | c1 :: c2 :: r5 =>
    if (c1 = 'I' && c2 = 'N') || (c1 = 'C' && c2 = 'H') ||
       (c1 = 'H' && c2 = 'S') then
      let w3 := r5.takeWhile isPySpace
      let r6 := r5.dropWhile isPySpace
      if w3 = [] then none else
      let rty := r6.takeWhile (fun c => c.isAlphanum || c = '_')
      let r7 := r6.dropWhile (fun c => c.isAlphanum || c = '_')
      if rty = [] then none else
      let w4 := r7.takeWhile isPySpace
      let r8 := r7.dropWhile isPySpace
      if w4 = [] then none else
      match r8 with
      | [] =>
        match w4.reverse with
        | c :: _ :: _ => some (⟨name⟩, ⟨ttl⟩, ⟨[c1, c2]⟩, ⟨rty⟩, ⟨[c]⟩)
        | _ => none
      | _ => some (⟨name⟩, ⟨ttl⟩, ⟨[c1, c2]⟩, ⟨rty⟩, ⟨r8⟩)
    else none
  | _ => none

/-- dig_parser.py parse_mx_record: split the value once on whitespace,
require exactly two parts, parse the priority with int inside a try that
catches ValueError (hence also pydantic ValidationError). -/
def parseMXrecord (name ttlS cls value : String) :
    Except PyExc (Option DNSRecord) :=
  match pySplitOnce value with
  | [prioS, mailServer] =>
    let body : Except PyExc (Option DNSRecord) :=
      match pyIntE prioS with
      | .error e => .error e
      | .ok priority =>
        match pyIntE ttlS with
        | .error e => .error e
        | .ok ttl =>
          match mkMXRecord name ttl cls priority mailServer value with
          | .error e => .error e
          | .ok r => .ok (some r)
    match body with
    | .error .valueError => .ok none
    | .error .validationError => .ok none
    | other => other
  | _ => .ok none

/-- The generic branch of dig_parser.py parse_record_line: int(ttl) and
RecordType(type) may raise ValueError, DNSRecord construction may raise
ValidationError. -/
def parseGenericRecord (name ttlS cls rtS value : String) :
    Except PyExc (Option DNSRecord) :=
  match pyIntE ttlS with
  | .error e => .error e
  | .ok ttl =>
    match mkRecordTypeE rtS with
    | .error e => .error e
    | .ok rt =>
      match mkDNSRecord name ttl cls rt value with
      | .error e => .error e
      | .ok r => .ok (some r)

/-- The try block of parse_record_line catches ValueError and KeyError
(and thereby pydantic ValidationError); other exception kinds
propagate. -/
def catchValueKey (x : Except PyExc (Option DNSRecord)) :
    Except PyExc (Option DNSRecord) :=
  match x with
  | .error .valueError => .ok none
  | .error .keyError => .ok none
  | .error .validationError => .ok none
  | other => other

/-- dig_parser.py parse_record_line: match the record regex, then build
an MX record or a generic record inside a try/except that silently drops
the line on ValueError or KeyError. -/
def parseRecordLine (line : String) : Except PyExc (Option DNSRecord) :=
  match matchRecordLine line.data with
  | none => .ok none
  | some (name, ttlS, cls, rtS, value) =>
    catchValueKey
      (if rtS = "MX" then parseMXrecord name ttlS cls value
       else parseGenericRecord name ttlS cls rtS value)

/-- Generic scanner modelling re.search: try the matcher at every suffix
of the text, leftmost position first, including the empty suffix. -/
def scanFor {α : Type} (f : List Char → Option α) : List Char → Option α
  | [] => f []
  | c :: cs =>
    match f (c :: cs) with
    | some a => some a
    | none => scanFor f cs

/-- The status regex tried at one position: literal status marker, then
optional whitespace, then at least one word character. -/
def statusAt (l : List Char) : Option String :=
  if leadsWithL "status:".data l then
    let r := (l.drop 7).dropWhile isPySpace
    let w := r.takeWhile (fun c => c.isAlphanum || c = '_')
    if w = [] then none else some ⟨w⟩
  else none

/-- dig_parser.py extract_status: first match anywhere in the output,
default NOERROR. -/
def extractStatus (output : String) : String :=
  (scanFor statusAt output.data).getD "NOERROR"

/-- The query-time regex tried at one position: literal marker, optional
whitespace, digits, optional whitespace, literal msec. -/
def queryTimeAt (l : List Char) : Option Nat :=
  if leadsWithL "Query time:".data l then
    let r := (l.drop 11).dropWhile isPySpace
    let ds := r.takeWhile Char.isDigit
    let r2 := (r.dropWhile Char.isDigit).dropWhile isPySpace
    if ds = [] then none
    else if leadsWithL "msec".data r2 then
      some (ds.foldl (fun acc c => acc * 10 + (c.toNat - 48)) 0)
    else none
  else none

/-- dig_parser.py extract_query_time: first match anywhere, None when
absent. -/
def extractQueryTime (output : String) : Option Nat :=
  scanFor queryTimeAt output.data

/-- The server regex tried at one position: literal marker, optional
whitespace, then at least one character that is neither whitespace nor a
hash. -/
def serverAt (l : List Char) : Option String :=
  if leadsWithL "SERVER:".data l then
    let r := (l.drop 7).dropWhile isPySpace
    let w := r.takeWhile (fun c => !isPySpace c && c ≠ '#')
    if w = [] then none else some ⟨w⟩
  else none

/-- dig_parser.py extract_server: first match anywhere; the captured
token cannot contain a hash or whitespace, so the subsequent port
stripping and strip calls of the source are identities. -/
def extractServer (output : String) : Option String :=
  scanFor serverAt output.data

/-- dig_parser.py parse_record_type: RecordType of the uppercased string
inside a try that defaults to A on ValueError. -/
def parseRecordTypeDefault (record_type : String) : RecordType :=
  match mkRecordTypeE (pyUpper record_type) with
  | .ok t => t
  | .error _ => .A

/-- models.py DigResponse (the query_time wall-clock field of the source
carries no information about parsing and is omitted). -/
structure DigResponse where
  query_domain : String
  query_type : RecordType
  server : Option String := none
  query_time_ms : Option Nat := none
  status : String := "NOERROR"
  answer_section : List DNSRecord := []
  authority_section : List DNSRecord := []
  additional_section : List DNSRecord := []
deriving DecidableEq, Repr

/-- pydantic construction of DigResponse: the query-domain validator
strips trailing dots and the server validator strips whitespace. -/
def mkDigResponse (qd : String) (qt : RecordType) (server : Option String)
    (qtms : Option Nat) (status : String)
    (ans auth addl : List DNSRecord) : DigResponse :=
  ⟨rstripDot qd, qt, server.map pyStrip, qtms, status, ans, auth, addl⟩

/-- The current-section state of the line scan in parse. -/
inductive DigSection
  | answer
  | authority
  | additional
deriving DecidableEq, Repr

/-- The mutable state of the line scan: current section and the three
record sequences in appearance order. -/
structure ParseState where
  cur : Option DigSection
  ans : List DNSRecord
  auth : List DNSRecord
  addl : List DNSRecord
deriving DecidableEq, Repr

/-- A section-header regex of dig_parser.py applied to one line: optional
whitespace, two semicolons, optional whitespace, the header name, then
only whitespace to the end of the line. -/
def matchSectionHeader (l : List Char) (name : List Char) : Bool :=
  match l.dropWhile isPySpace with
  | ';' :: ';' :: l2 =>
    let l3 := l2.dropWhile isPySpace
    leadsWithL name l3 && (l3.drop name.length).all isPySpace
  | _ => false

/-- Python line.startswith with a semicolon argument. -/
def startsWithSemicolon (s : String) : Bool :=
  match s.data with
  | c :: _ => c = ';'
  | [] => false

/-- One iteration of the line loop in dig_parser.py parse: strip the
line, skip blank lines and non-header comments, switch section on a
header, otherwise parse a record when inside a section. -/
def processLine (st : ParseState) (rawLine : String) :
    Except PyExc ParseState :=
  if pyStrip rawLine = "" then .ok st
  else if startsWithSemicolon (pyStrip rawLine) &&
      !hasSubstrS (pyStrip rawLine) "SECTION:" then .ok st
  else if matchSectionHeader (pyStrip rawLine).data "ANSWER SECTION:".data then
    .ok { st with cur := some .answer }
  else if matchSectionHeader (pyStrip rawLine).data
      "AUTHORITY SECTION:".data then
    .ok { st with cur := some .authority }
  else if matchSectionHeader (pyStrip rawLine).data
      "ADDITIONAL SECTION:".data then
    .ok { st with cur := some .additional }
  else
    match st.cur with
    | none => .ok st
    | some sec =>
      match parseRecordLine (pyStrip rawLine) with
      | .error e => .error e
      | .ok none => .ok st
      | .ok (some r) =>
        match sec with
        | .answer => .ok { st with ans := st.ans ++ [r] }
        | .authority => .ok { st with auth := st.auth ++ [r] }
        | .additional => .ok { st with addl := st.addl ++ [r] }

/-- The line loop of parse. -/
def parseLines : List String → ParseState → Except PyExc ParseState
  | [], st => .ok st
  | line :: rest, st =>
    match processLine st line with
    | .error e => .error e
    | .ok st2 => parseLines rest st2

/-- dig_parser.py parse: empty or whitespace-only output short-circuits
to a NODATA response; otherwise extract metadata from the whole text and
scan the stripped output line by line. -/
def parse (output domain record_type : String) : Except PyExc DigResponse :=
  if pyStrip output = "" then
    .ok (mkDigResponse domain (parseRecordTypeDefault record_type)
          none none "NODATA" [] [] [])
  else
    let st := extractStatus output
    let qt := extractQueryTime output
    let sv := extractServer output
    match parseLines ((pyStrip output).splitOn "\n") ⟨none, [], [], []⟩ with
    | .error e => .error e
    | .ok fin =>
      .ok (mkDigResponse domain (parseRecordTypeDefault record_type)
            sv qt st fin.ans fin.auth fin.addl)

/-- history.py HistoryEntry (timestamps are modelled as integer
seconds). -/
structure HistoryEntry where
  domain : String
  record_type : RecordType
  nameserver : Option String
  timestamp : Int
  status : String
  query_time_ms : Option Int
deriving DecidableEq, Repr

/-- history.py QueryHistory state: the configured bound and the in-memory
newest-first entry sequence (disk mirroring carries no extra state). -/
structure QueryHistory where
  max_entries : Int
  entries : List HistoryEntry
deriving DecidableEq, Repr

/-- Python list slicing l[:m]: for non-negative m the first m elements,
for negative m all but the last |m| elements. -/
def pyTakeInt {α : Type} (m : Int) (l : List α) : List α :=
  if 0 ≤ m then l.take m.toNat
  else l.take (l.length - min l.length (-m).toNat)

/-- The dedup condition of history.py add_entry: same domain ignoring
case, same record type, same nameserver, and the stored timestamp within
the five-minute threshold of now (300 seconds, strict). -/
def isDupMatch (e : HistoryEntry) (now : Int) (domain : String)
    (rt : RecordType) (ns : Option String) : Bool :=
  pyLower e.domain == pyLower domain && e.record_type == rt &&
    e.nameserver == ns && decide (now - e.timestamp < 300)

/-- history.py add_entry: replace the first recent duplicate in place
(new entry at position 0, no truncation), otherwise insert at position 0
and truncate to max_entries whenever the length exceeds it. -/
def addEntry (h : QueryHistory) (now : Int) (domain : String)
    (rt : RecordType) (ns : Option String) (status : String)
    (qtms : Option Int) : QueryHistory :=
  let newEntry : HistoryEntry := ⟨domain, rt, ns, now, status, qtms⟩
  match h.entries.findIdx? (fun e => isDupMatch e now domain rt ns) with
  | some i => { h with entries := newEntry :: h.entries.eraseIdx i }
  | none =>
    let l := newEntry :: h.entries
    { h with
      entries := if (l.length : Int) > h.max_entries then pyTakeInt h.max_entries l else l }

/-- history.py get_entries: a copy of the first limit entries, or of the
whole sequence when no limit is given. -/
def getEntries (h : QueryHistory) (limit : Option Int) : List HistoryEntry :=
  match limit with
  | none => h.entries
  | some m => pyTakeInt m h.entries

/-- The loop of history.py get_recent_domains: first occurrences in
order, stopping once the accumulator reaches the limit (checked after
each append, as in the source). -/
def recentDomainsLoop : List HistoryEntry → List String → List String →
    Nat → List String
  | [], _, acc, _ => acc
  | e :: rest, seen, acc, limit =>
    if seen.contains e.domain then recentDomainsLoop rest seen acc limit
    else
      let acc2 := acc ++ [e.domain]
      if acc2.length ≥ limit then acc2
      else recentDomainsLoop rest (e.domain :: seen) acc2 limit

/-- history.py get_recent_domains. -/
def getRecentDomains (h : QueryHistory) (limit : Nat) : List String :=
  recentDomainsLoop h.entries [] [] limit

/-- history.py search_history: case-insensitive substring match on the
domain, preserving order. -/
def searchHistory (h : QueryHistory) (query : String) : List HistoryEntry :=
  h.entries.filter (fun e => hasSubstrS (pyLower e.domain) (pyLower query))

/-- Insertion-ordered counting dictionary of history.py get_stats:
increment an existing key in place or append a new key with count 1. -/
def incrKey : List (String × Nat) → String → List (String × Nat)
  | [], k => [(k, 1)]
  | (k2, n) :: rest, k =>
    if k2 = k then (k2, n + 1) :: rest else (k2, n) :: incrKey rest k

/-- The record-type counting scan of get_stats. -/
def countTypes (entries : List HistoryEntry) : List (String × Nat) :=
  entries.foldl (fun acc e => incrKey acc e.record_type.value) []

/-- Python max over the counting dictionary keys with the count as key
function: iterates in insertion order and replaces the current best only
on a strictly greater count, so ties keep the earlier key. -/
def mostCommonType (tc : List (String × Nat)) : Option String :=
  (tc.foldl
    (fun best p =>
      match best with
      | none => some p
      | some q => if p.2 > q.2 then some p else some q)
    none).map Prod.fst

/-- The result shape of history.py get_stats; type_distribution is none
when the key is absent from the returned dictionary (the empty-history
branch of the source omits it). -/
structure HistoryStats where
  total_queries : Nat
  unique_domains : Nat
  most_common_type : Option String
  success_rate : ℚ
  type_distribution : Option (List (String × Nat))
deriving DecidableEq, Repr

/-- history.py get_stats. -/
def getStats (h : QueryHistory) : HistoryStats :=
  if h.entries = [] then ⟨0, 0, none, 0, none⟩
  else
    let tc := countTypes h.entries
    let succ := (h.entries.filter (fun e => e.status = "NOERROR")).length
    ⟨h.entries.length,
     (h.entries.map (fun e => e.domain)).dedup.length,
     mostCommonType tc,
     (succ : ℚ) / (h.entries.length : ℚ) * 100,
     some tc⟩

/-- history.py enforce_limit: a no-op for non-positive limits, otherwise
trim to the first max_limit entries when exceeded (the configured
max_entries field is not touched). -/
def enforceLimit (h : QueryHistory) (maxLimit : Int) : QueryHistory :=
  if maxLimit ≤ 0 then h
  else if (h.entries.length : Int) > maxLimit then
    { h with entries := pyTakeInt maxLimit h.entries }
  else h

/-- history.py set_max_entries: store the new limit, and enforce it only
when positive. -/
def setMaxEntries (h : QueryHistory) (m : Int) : QueryHistory :=
  let h2 := { h with max_entries := m }
  if m > 0 then enforceLimit h2 m else h2

/-- The fixed structured-output flag set of dig_executor.py
build_command. -/
def structuredOutputFlags : List String :=
  ["+noall", "+answer", "+authority", "+additional", "+stats",
   "+comments", "+cmd"]

/-- dig_executor.py build_command: base token, optional nameserver
token, reverse-lookup or domain-and-type tokens, optional trace flag,
then the short flag or the structured-output flag set. -/
def buildCommand (domain record_type : String) (nameserver : Option String)
    (reverse_lookup trace short : Bool) : List String :=
  let base := ["dig"]
  let base :=
    match nameserver with
    | some ns => if pyStrip ns = "" then base else base ++ ["@" ++ pyStrip ns]
    | none => base
  let base :=
    if reverse_lookup then base ++ ["-x", domain]
    else base ++ [domain, record_type]
  let base := if trace then base ++ ["+trace"] else base
  if short then base ++ ["+short"] else base ++ structuredOutputFlags

/-- dig_executor.py execute_dig up to the point where the command is
built: an empty or whitespace-only domain is rejected, otherwise the
domain is stripped and the record type stripped and uppercased before
build_command runs. -/
def executeDigCommand (domain record_type : String)
    (nameserver : Option String) (reverse_lookup trace short : Bool) :
    Option (List String) :=
  if pyStrip domain = "" then none
  else some (buildCommand (pyStrip domain) (pyUpper (pyStrip record_type))
               nameserver reverse_lookup trace short)

/-- The friendlier network-failure message of dig_executor.py. -/
def networkFailMsg : String :=
  "Network connection failed. Please check your internet connection."

/-- The stderr-derived error text: stripped stderr, or a generic message
when stderr is empty (Python truthiness of the raw string). -/
def stderrMsg (stderr : String) : String :=
  if stderr = "" then "dig command failed" else pyStrip stderr

/-- The result handling of dig_executor.py execute_in_thread once the
subprocess has finished: deliver stdout on exit code zero or non-empty
stdout, otherwise build an error from stderr and replace it with the
network-failure message when it contains a known substring
(case-insensitively). -/
def processResultAsync (returncode : Int) (stdout stderr : String) :
    String × Option String :=
  if returncode = 0 then (stdout, none)
  else if pyStrip stdout ≠ "" then (stdout, none)
  else
    let errorMsg := stderrMsg stderr
    if hasSubstrS (pyLower errorMsg) "network unreachable" ||
       hasSubstrS (pyLower errorMsg) "connection timed out" then
      ("", some networkFailMsg)
    else ("", some ("dig command failed: " ++ errorMsg))

/-- The result handling of dig_executor.py execute_dig_sync: same
success policy, but the error branch returns the stderr-derived message
without the network-substring replacement. -/
def processResultSync (returncode : Int) (stdout stderr : String) :
    String × Option String :=
  if returncode = 0 || pyStrip stdout ≠ "" then (stdout, none)
  else ("", some ("dig command failed: " ++ stderrMsg stderr))

/-- The history entries used by the concrete statistics scenario of the
spec (newest-first, type counts A three, MX one, AAAA one, four entries
with NOERROR status). -/
def statsScenarioEntries : List HistoryEntry :=
  [⟨"example.com", .A, none, 0, "NOERROR", none⟩,
   ⟨"test.com", .A, none, 1, "NOERROR", none⟩,
   ⟨"example.com", .MX, none, 2, "NXDOMAIN", none⟩,
   ⟨"other.com", .A, none, 3, "NOERROR", none⟩,
   ⟨"test.com", .AAAA, none, 4, "NOERROR", none⟩]

/-- Claim C9: get_stats on an empty history returns zero and none
defaults (the type distribution key being absent, as in the source and
its tests); on the five-entry history with type counts A three, MX one,
AAAA one and four NOERROR entries it returns most common type A and
success rate eighty percent; ties in the type counts are broken in
favour of the key encountered first during the count scan. -/
theorem C9_get_stats :
    getStats ⟨100, []⟩ = ⟨0, 0, none, 0, none⟩ ∧
    getStats ⟨100, statsScenarioEntries⟩ =
      ⟨5, 3, some "A", 80, some [("A", 3), ("MX", 1), ("AAAA", 1)]⟩ ∧
    mostCommonType [("A", 2), ("MX", 2)] = some "A" ∧
    mostCommonType [("MX", 2), ("A", 2)] = some "MX" := by
  refine ⟨by decide, ?_, by decide, by decide⟩
  have hsucc :
      (statsScenarioEntries.filter (fun e => e.status = "NOERROR")).length
        = 4 := by decide
  have hlen : statsScenarioEntries.length = 5 := by decide
  rw [getStats]
  rw [if_neg (by decide)]
  simp only [HistoryStats.mk.injEq]
  refine ⟨by decide, by decide, by decide, ?_, by decide⟩
  rw [hsucc, hlen]
  norm_num

/-- Claim C8 (recording the divergence): set_max_entries with limit zero
removes no entries by itself (and enforce_limit with a non-positive
limit is a no-op), but the store does not behave as unbounded
afterwards: the next non-duplicate add_entry truncates the list to its
first zero entries, emptying the store. -/
theorem C8_set_max_entries_zero_truncates :
    (setMaxEntries ⟨100, [⟨"example.com", .A, none, 0, "NOERROR", none⟩]⟩
        0).entries = [⟨"example.com", .A, none, 0, "NOERROR", none⟩] ∧
    (enforceLimit ⟨100, [⟨"example.com", .A, none, 0, "NOERROR", none⟩]⟩
        0).entries = [⟨"example.com", .A, none, 0, "NOERROR", none⟩] ∧
    (setMaxEntries ⟨100, [⟨"example.com", .A, none, 0, "NOERROR", none⟩]⟩
        0).max_entries = 0 ∧
    (addEntry
        (setMaxEntries ⟨100, [⟨"example.com", .A, none, 0, "NOERROR", none⟩]⟩ 0)
        1000 "other.com" .A none "NOERROR" none).entries = [] := by
  refine ⟨by decide, by decide, by decide, ?_⟩
  decide

deriving instance DecidableEq for Except

/-- Claim C5: parsing an empty or whitespace-only output yields a NODATA
response with no records, the query domain as given with trailing dots
stripped, and the query type resolved by uppercasing the requested
record-type string, defaulting to A when unknown. -/
theorem C5_parse_blank_output (output domain record_type : String)
    (h : pyStrip output = "") :
    parse output domain record_type =
      .ok { query_domain := rstripDot domain,
            query_type := (recordTypeOfString (pyUpper record_type)).getD .A,
            server := none, query_time_ms := none, status := "NODATA",
            answer_section := [], authority_section := [],
            additional_section := [] } := by
  unfold parse
  rw [if_pos h]
  unfold mkDigResponse parseRecordTypeDefault mkRecordTypeE
  cases hrt : recordTypeOfString (pyUpper record_type) <;>
    simp [Option.map, hrt]

/-- Witness for claim C5 at a concrete whitespace-only output with a
trailing-dot domain and an unknown record type. -/
theorem C5_parse_blank_output_witness :
    parse " \n " "Example.com." "foo" =
      .ok { query_domain := "Example.com", query_type := .A,
            server := none, query_time_ms := none, status := "NODATA",
            answer_section := [], authority_section := [],
            additional_section := [] } :=
  (C5_parse_blank_output " \n " "Example.com." "foo" (by decide)).trans
    (by decide)

/-- The MX branch drops the line whenever the value does not split into
exactly two parts or the priority token is not a non-negative
integer. -/
theorem parseMXrecord_drops (n t c v : String)
    (hbad : (pySplitOnce v).length ≠ 2 ∨
      ∃ p m, pySplitOnce v = [p, m] ∧
        (pyIntParse p = none ∨ ∃ k, pyIntParse p = some k ∧ k < 0)) :
    parseMXrecord n t c v = .ok none := by
  unfold parseMXrecord
  rcases hbad with hlen | ⟨p, m, hpm, hp⟩
  · rcases hs : pySplitOnce v with _ | ⟨p, _ | ⟨m, _ | ⟨x, rest⟩⟩⟩ <;>
      simp_all
  · rw [hpm]
    rcases hp with hp0 | ⟨k, hk, hkneg⟩
    · simp [pyIntE, hp0]
    · rcases hpt : pyIntParse t with _ | tt
      · simp [pyIntE, hk, hpt]
      · simp [pyIntE, hk, hpt, mkMXRecord]
        split_ifs <;> simp_all

/-- Claim C2: the concrete MX line parses to an MX record with priority
ten, mail server with the trailing dot stripped, and value keeping the
raw priority-and-server text; and every matched MX line whose value does
not split into exactly two whitespace-separated parts, or whose priority
token is not a non-negative integer, is dropped. -/
theorem C2_mx_record_parsing :
    parseRecordLine "example.com. 300 IN MX 10 mail.example.com." =
      .ok (some ⟨"example.com", 300, "IN", .MX, "10 mail.example.com",
                 some ⟨10, "mail.example.com"⟩⟩) ∧
    ∀ (line n t c v : String),
      matchRecordLine line.data = some (n, t, c, "MX", v) →
      ((pySplitOnce v).length ≠ 2 ∨
        ∃ p m, pySplitOnce v = [p, m] ∧
          (pyIntParse p = none ∨ ∃ k, pyIntParse p = some k ∧ k < 0)) →
      parseRecordLine line = .ok none := by
  constructor
  · decide
  · intro line n t c v hm hbad
    unfold parseRecordLine
    rw [hm]
    show catchValueKey
        (if "MX" = "MX" then parseMXrecord n t c v
         else parseGenericRecord n t c "MX" v) = Except.ok none
    rw [if_pos rfl, parseMXrecord_drops n t c v hbad]
    rfl

/-- Witness for claim C2 at a concrete MX line whose value is a single
token, hence dropped. -/
theorem C2_mx_record_parsing_witness :
    parseRecordLine "a. 1 IN MX 10" = .ok none :=
  C2_mx_record_parsing.2 "a. 1 IN MX 10" "a." "1" "IN" "10" (by decide)
    (Or.inl (by decide))

/-- A list always occurs at the head of itself. -/
theorem leadsWith_self {α : Type} [DecidableEq α] (l : List α) :
    leadsWithL l l = true := by
  induction l with
  | nil => rfl
  | cons a as ih => simp [leadsWithL, ih]

/-- Every list contains itself as a substring. -/
theorem hasSubstr_self {α : Type} [DecidableEq α] (l : List α) :
    hasSubstrL l l = true := by
  cases l with
  | nil => rfl
  | cons a as => simp [hasSubstrL, leadsWith_self]

/-- Claim C10: get_recent_domains distinguishes domains that differ only
in letter case, returning both as separate recent domains, even though
the add_entry dedup match and search_history compare domains
case-insensitively (both treat the two domains alike). -/
theorem C10_recent_domains_case_sensitive (d1 d2 : String) (rt : RecordType)
    (ns : Option String) (t1 t2 : Int) (s1 s2 : String) (q1 q2 : Option Int)
    (hne : d1 ≠ d2) (hlow : pyLower d1 = pyLower d2) :
    getRecentDomains
        ⟨100, [⟨d1, rt, ns, t1, s1, q1⟩, ⟨d2, rt, ns, t2, s2, q2⟩]⟩ 10 =
      [d1, d2] ∧
    isDupMatch ⟨d1, rt, ns, t1, s1, q1⟩ t1 d2 rt ns = true ∧
    searchHistory
        ⟨100, [⟨d1, rt, ns, t1, s1, q1⟩, ⟨d2, rt, ns, t2, s2, q2⟩]⟩ d2 =
      [⟨d1, rt, ns, t1, s1, q1⟩, ⟨d2, rt, ns, t2, s2, q2⟩] := by
  refine ⟨?_, ?_, ?_⟩
  · unfold getRecentDomains recentDomainsLoop
    simp [List.contains_cons, recentDomainsLoop]
    exact fun h => hne h.symm
  · simp [isDupMatch, hlow, sub_self]
  · unfold searchHistory
    simp [hasSubstrS, ← hlow, hasSubstr_self]

/-- Witness for claim C10 at two concrete domains differing only in
case. -/
theorem C10_recent_domains_case_sensitive_witness :
    getRecentDomains
        ⟨100, [⟨"Example.com", .A, none, 0, "NOERROR", none⟩,
               ⟨"example.com", .A, none, 400, "NOERROR", none⟩]⟩ 10 =
      ["Example.com", "example.com"] ∧
    isDupMatch ⟨"Example.com", .A, none, 0, "NOERROR", none⟩ 0
        "example.com" .A none = true ∧
    searchHistory
        ⟨100, [⟨"Example.com", .A, none, 0, "NOERROR", none⟩,
               ⟨"example.com", .A, none, 400, "NOERROR", none⟩]⟩
        "example.com" =
      [⟨"Example.com", .A, none, 0, "NOERROR", none⟩,
       ⟨"example.com", .A, none, 400, "NOERROR", none⟩] :=
  C10_recent_domains_case_sensitive "Example.com" "example.com" .A none
    0 400 "NOERROR" "NOERROR" none none (by decide) (by decide)

/-- Claim C3: when a stored entry matches the new query on domain
(ignoring case), record type and nameserver within the five-minute
window, add_entry replaces instead of appending: the length is
unchanged and the entry at position 0 carries the new timestamp, status
and query time; in particular two such calls from an empty store leave
exactly the one updated entry. -/
theorem C3_add_entry_dedup :
    (∀ (h : QueryHistory) (now : Int) (d : String) (rt : RecordType)
        (ns : Option String) (st : String) (qt : Option Int),
      (∃ e ∈ h.entries, isDupMatch e now d rt ns = true) →
      (addEntry h now d rt ns st qt).entries.length = h.entries.length ∧
      (addEntry h now d rt ns st qt).entries.head? =
        some ⟨d, rt, ns, now, st, qt⟩) ∧
    (∀ (t1 t2 : Int) (d1 d2 : String) (rt : RecordType) (ns : Option String)
        (s1 s2 : String) (q1 q2 : Option Int),
      pyLower d1 = pyLower d2 → t2 - t1 < 300 →
      (addEntry (addEntry ⟨100, []⟩ t1 d1 rt ns s1 q1)
          t2 d2 rt ns s2 q2).entries = [⟨d2, rt, ns, t2, s2, q2⟩]) := by
  constructor
  · intro h now d rt ns st qt hex
    obtain ⟨e, he, hpe⟩ := hex
    have hfind : h.entries.findIdx? (fun e => isDupMatch e now d rt ns) =
        some (h.entries.findIdx (fun e => isDupMatch e now d rt ns)) :=
      List.findIdx?_eq_some_of_exists ⟨e, he, hpe⟩
    have hlt : h.entries.findIdx (fun e => isDupMatch e now d rt ns) <
        h.entries.length :=
      List.findIdx_lt_length_of_exists ⟨e, he, hpe⟩
    unfold addEntry
    rw [hfind]
    constructor
    · simp only [List.length_cons, List.length_eraseIdx_of_lt hlt]
      omega
    · rfl
  · intro t1 t2 d1 d2 rt ns s1 s2 q1 q2 hlow h300
    have h1 : addEntry ⟨100, []⟩ t1 d1 rt ns s1 q1 =
        ⟨100, [⟨d1, rt, ns, t1, s1, q1⟩]⟩ := by
      unfold addEntry
      norm_num
    rw [h1]
    have hp : isDupMatch ⟨d1, rt, ns, t1, s1, q1⟩ t2 d2 rt ns = true := by
      simp [isDupMatch, hlow, h300]
    unfold addEntry
    rw [List.findIdx?_cons]
    rw [hp]
    rfl

/-- Witness for claim C3: a store holding one matching recent entry and
the two-call scenario, both at concrete inputs. -/
theorem C3_add_entry_dedup_witness :
    ((addEntry ⟨100, [⟨"Example.com", .A, none, 0, "NOERROR", none⟩]⟩
        100 "example.com" .A none "NXDOMAIN" (some 5)).entries.length = 1 ∧
     (addEntry ⟨100, [⟨"Example.com", .A, none, 0, "NOERROR", none⟩]⟩
        100 "example.com" .A none "NXDOMAIN" (some 5)).entries.head? =
       some ⟨"example.com", .A, none, 100, "NXDOMAIN", some 5⟩) ∧
    (addEntry (addEntry ⟨100, []⟩ 0 "Example.com" .A none "NOERROR" none)
        100 "example.com" .A none "NXDOMAIN" (some 5)).entries =
      [⟨"example.com", .A, none, 100, "NXDOMAIN", some 5⟩] :=
  ⟨C3_add_entry_dedup.1
      ⟨100, [⟨"Example.com", .A, none, 0, "NOERROR", none⟩]⟩
      100 "example.com" .A none "NXDOMAIN" (some 5)
      ⟨⟨"Example.com", .A, none, 0, "NOERROR", none⟩, by decide⟩,
   C3_add_entry_dedup.2 0 100 "Example.com" "example.com" .A none
      "NOERROR" "NXDOMAIN" none (some 5) (by decide) (by decide)⟩

/-- The arguments of one add_entry call, for stating properties of call
sequences. -/
structure AddReq where
  now : Int
  domain : String
  record_type : RecordType
  nameserver : Option String
  status : String
  query_time_ms : Option Int
deriving DecidableEq, Repr

/-- The entry that add_entry builds for a call. -/
def mkEntryOfReq (a : AddReq) : HistoryEntry :=
  ⟨a.domain, a.record_type, a.nameserver, a.now, a.status, a.query_time_ms⟩

/-- The dedup key of a call: domain lowered, record type, nameserver. -/
def reqKey (a : AddReq) : String × RecordType × Option String :=
  (pyLower a.domain, a.record_type, a.nameserver)

/-- The dedup key of a stored entry. -/
def entryKey (e : HistoryEntry) : String × RecordType × Option String :=
  (pyLower e.domain, e.record_type, e.nameserver)

/-- Folding a sequence of add_entry calls over a store. -/
def runAddsFrom (h : QueryHistory) (adds : List AddReq) : QueryHistory :=
  adds.foldl
    (fun h a => addEntry h a.now a.domain a.record_type a.nameserver
      a.status a.query_time_ms) h

/-- A matching dedup test forces equal keys. -/
theorem key_eq_of_isDupMatch {e : HistoryEntry} {now : Int} {d : String}
    {rt : RecordType} {ns : Option String}
    (h : isDupMatch e now d rt ns = true) :
    entryKey e = (pyLower d, rt, ns) := by
  unfold isDupMatch at h
  simp only [Bool.and_eq_true, beq_iff_eq, decide_eq_true_eq] at h
  simp [entryKey, h.1.1.1, h.1.1.2, h.1.2]

/-- When no stored entry matches the dedup condition, add_entry inserts
at position 0 and truncates to the max-entries bound (for a non-negative
bound the untrimmed and trimmed branches agree on a take). -/
theorem addEntry_of_no_dup (h : QueryHistory) (now : Int) (d : String)
    (rt : RecordType) (ns : Option String) (st : String) (qt : Option Int)
    (hmax : 0 ≤ h.max_entries)
    (hnone : h.entries.findIdx? (fun e => isDupMatch e now d rt ns) = none) :
    addEntry h now d rt ns st qt =
      ⟨h.max_entries,
       (⟨d, rt, ns, now, st, qt⟩ :: h.entries).take h.max_entries.toNat⟩ := by
  unfold addEntry
  rw [hnone]
  simp only
  split_ifs with hgt
  · simp [pyTakeInt, hmax]
  · rw [QueryHistory.mk.injEq]
    refine ⟨rfl, ?_⟩
    symm
    apply List.take_of_length_le
    simp only [List.length_cons] at hgt ⊢
    omega

/-- Taking after appending an already-taken tail is the same as taking
after appending the whole tail. -/
theorem take_append_take {α : Type} (m : Nat) (l s : List α) :
    (l ++ s.take m).take m = (l ++ s).take m := by
  rw [List.take_append_eq_append_take, List.take_append_eq_append_take,
    List.take_take, Nat.min_eq_left (Nat.sub_le m l.length)]

/-- Characterisation of a sequence of pairwise non-deduplicable
add_entry calls: the store ends up holding the most recent calls,
newest first, truncated to the bound. -/
theorem runAdds_entries (adds : List AddReq) :
    ∀ (s : List HistoryEntry) (maxE : Int), 1 ≤ maxE →
    (s.length : Int) ≤ maxE →
    adds.Pairwise (fun a b => reqKey a ≠ reqKey b) →
    (∀ e ∈ s, ∀ a ∈ adds, entryKey e ≠ reqKey a) →
    (runAddsFrom ⟨maxE, s⟩ adds).entries =
      ((adds.reverse.map mkEntryOfReq) ++ s).take maxE.toNat := by
  induction adds with
  | nil =>
    intro s maxE h1 h2 _ _
    simp only [runAddsFrom, List.foldl_nil, List.reverse_nil, List.map_nil,
      List.nil_append]
    symm
    apply List.take_of_length_le
    omega
  | cons a rest ih =>
    intro s maxE h1 h2 hpw hkeys
    have hnone : s.findIdx?
        (fun e => isDupMatch e a.now a.domain a.record_type a.nameserver) =
          none := by
      rw [List.findIdx?_eq_none_iff]
      intro e he
      cases hb : isDupMatch e a.now a.domain a.record_type a.nameserver
      · rfl
      · exact absurd ((key_eq_of_isDupMatch hb).trans rfl)
          (hkeys e he a (List.mem_cons_self a rest))
    rw [List.pairwise_cons] at hpw
    have hstep : runAddsFrom ⟨maxE, s⟩ (a :: rest) =
        runAddsFrom ⟨maxE, (mkEntryOfReq a :: s).take maxE.toNat⟩ rest := by
      simp only [runAddsFrom, List.foldl_cons]
      rw [addEntry_of_no_dup ⟨maxE, s⟩ a.now a.domain a.record_type
        a.nameserver a.status a.query_time_ms (show (0:Int) ≤ maxE by omega)
        hnone]
      rfl
    rw [hstep, ih]
    · rw [take_append_take]
      congr 1
      simp [List.reverse_cons, List.map_append, List.append_assoc]
    · exact h1
    · have := List.length_take maxE.toNat (mkEntryOfReq a :: s)
      have h3 : ((mkEntryOfReq a :: s).take maxE.toNat).length ≤
          maxE.toNat := by
        rw [this]
        exact Nat.min_le_left _ _
      omega
    · exact hpw.2
    · intro e he b hb
      have hmem : e ∈ mkEntryOfReq a :: s :=
        (List.take_sublist _ _).subset he
      rcases List.mem_cons.mp hmem with rfl | hs
      · exact fun hcontr => hpw.1 b hb (rfl.trans hcontr)
      · exact hkeys e hs b (List.mem_cons_of_mem a hb)

/-- Claim C4: for a bound of at least one, (i) an add_entry call from a
state within the bound stays within the bound, and (ii) adding a list of
pairwise non-deduplicable entries to an empty store leaves the most
recently added entries, newest first, truncated to the bound, hence
exactly the bound many once more than the bound have been added. -/
theorem C4_history_bound :
    (∀ (h : QueryHistory) (now : Int) (d : String) (rt : RecordType)
        (ns : Option String) (st : String) (qt : Option Int),
      1 ≤ h.max_entries →
      (h.entries.length : Int) ≤ h.max_entries →
      ((addEntry h now d rt ns st qt).entries.length : Int) ≤
        h.max_entries) ∧
    (∀ (adds : List AddReq) (maxE : Int), 1 ≤ maxE →
      adds.Pairwise (fun a b => reqKey a ≠ reqKey b) →
      (runAddsFrom ⟨maxE, []⟩ adds).entries =
        (adds.reverse.map mkEntryOfReq).take maxE.toNat ∧
      ((adds.length : Int) > maxE →
        ((runAddsFrom ⟨maxE, []⟩ adds).entries.length : Int) = maxE)) := by
  constructor
  · intro h now d rt ns st qt h1 h2
    unfold addEntry
    cases hf : h.entries.findIdx? (fun e => isDupMatch e now d rt ns) with
    | some i =>
      obtain ⟨hlt, -, -⟩ := List.findIdx?_eq_some_iff_getElem.mp hf
      simp only [List.length_cons, List.length_eraseIdx_of_lt hlt]
      omega
    | none =>
      simp only
      split_ifs with hgt
      · have : (pyTakeInt h.max_entries
            (⟨d, rt, ns, now, st, qt⟩ :: h.entries)).length ≤
              h.max_entries.toNat := by
          simp only [pyTakeInt, if_pos (by omega : (0:Int) ≤ h.max_entries)]
          rw [List.length_take]
          exact Nat.min_le_left _ _
        omega
      · simp only [List.length_cons] at hgt ⊢
        omega
  · intro adds maxE h1 hpw
    have hrun := runAdds_entries adds [] maxE h1
      (by simp only [List.length_nil, Nat.cast_zero]; omega) hpw (by simp)
    rw [List.append_nil] at hrun
    refine ⟨hrun, ?_⟩
    intro hgt
    rw [hrun, List.length_take, List.length_map, List.length_reverse]
    have : maxE.toNat ≤ adds.length := by omega
    rw [Nat.min_eq_left this]
    omega

/-- The three pairwise-distinct add_entry calls of the C4 witness. -/
def c4reqs : List AddReq :=
  [⟨0, "a.com", .A, none, "NOERROR", none⟩,
   ⟨1, "b.com", .A, none, "NOERROR", none⟩,
   ⟨2, "c.com", .A, none, "NOERROR", none⟩]

/-- Witness for claim C4: one in-bound add_entry call, and three
distinct-domain calls against a bound of two, leaving the two newest. -/
theorem C4_history_bound_witness :
    ((addEntry ⟨2, [⟨"a.com", .A, none, 0, "NOERROR", none⟩]⟩
        1000 "b.com" .A none "NOERROR" none).entries.length : Int) ≤ 2 ∧
    (runAddsFrom ⟨2, []⟩ c4reqs).entries =
      (c4reqs.reverse.map mkEntryOfReq).take (2 : Int).toNat ∧
    ((runAddsFrom ⟨2, []⟩ c4reqs).entries.length : Int) = 2 :=
  ⟨C4_history_bound.1 ⟨2, [⟨"a.com", .A, none, 0, "NOERROR", none⟩]⟩
      1000 "b.com" .A none "NOERROR" none (by decide) (by decide),
   (C4_history_bound.2 c4reqs 2 (by decide) (by decide)).1,
   (C4_history_bound.2 c4reqs 2 (by decide) (by decide)).2 (by decide)⟩

/-- The nameserver token segment: present iff a nameserver non-empty
after trim was given. -/
def nsTokens (ns : Option String) : List String :=
  match ns with
  | some s => if pyStrip s = "" then [] else ["@" ++ pyStrip s]
  | none => []

/-- Does the command end with the given token sequence. -/
def endsWithFlags (cmd flags : List String) : Bool :=
  leadsWithL flags.reverse cmd.reverse

/-- A pattern occurs at the head of itself followed by anything. -/
theorem leadsWith_self_append {α : Type} [DecidableEq α] (p t : List α) :
    leadsWithL p (p ++ t) = true := by
  induction p with
  | nil => rfl
  | cons a as ih => simp [leadsWithL, ih]

/-- Appending a flag sequence makes the command end with it. -/
theorem endsWithFlags_append (l flags : List String) :
    endsWithFlags (l ++ flags) flags = true := by
  unfold endsWithFlags
  rw [List.reverse_append]
  exact leadsWith_self_append _ _

/-- A command ending in the short flag does not end with the structured
flag set. -/
theorem endsWithFlags_short_not_structured (l : List String) :
    endsWithFlags (l ++ ["+short"]) structuredOutputFlags = false := by
  unfold endsWithFlags structuredOutputFlags
  rw [List.reverse_append]
  simp [leadsWithL]

/-- A command ending in the structured flag set does not end with the
short flag. -/
theorem endsWithFlags_structured_not_short (l : List String) :
    endsWithFlags (l ++ structuredOutputFlags) ["+short"] = false := by
  unfold endsWithFlags structuredOutputFlags
  rw [List.reverse_append]
  simp [leadsWithL]

/-- Decomposition of build_command into the claimed segments. -/
theorem buildCommand_shape (dom rty : String) (ns : Option String)
    (rev tr sh : Bool) :
    buildCommand dom rty ns rev tr sh =
      ["dig"] ++ nsTokens ns ++
        (if rev then ["-x", dom] else [dom, rty]) ++
        (if tr then ["+trace"] else []) ++
        (if sh then ["+short"] else structuredOutputFlags) := by
  unfold buildCommand nsTokens
  rcases ns with _ | s
  · cases rev <;> cases tr <;> cases sh <;> simp [List.append_assoc]
  · by_cases hs : pyStrip s = "" <;>
      [skip; skip] <;> simp only [hs, if_true, if_false] <;>
      cases rev <;> cases tr <;> cases sh <;> simp [hs, List.append_assoc]

/-- Claim C6: the built command begins with the dig token, carries the
nameserver token iff a nameserver non-empty after trim was given, then
the reverse-lookup pair or the stripped domain with the uppercased
trimmed record type, then the optional trace flag, and ends with the
short flag or the structured-output flag set, exactly one of the two. -/
theorem C6_build_command (d rt : String) (ns : Option String)
    (rev tr sh : Bool) (hd : pyStrip d ≠ "") :
    ∃ cmd, executeDigCommand d rt ns rev tr sh = some cmd ∧
      cmd = ["dig"] ++ nsTokens ns ++
        (if rev then ["-x", pyStrip d]
         else [pyStrip d, pyUpper (pyStrip rt)]) ++
        (if tr then ["+trace"] else []) ++
        (if sh then ["+short"] else structuredOutputFlags) ∧
      cmd.head? = some "dig" ∧
      (sh = true → cmd.getLast? = some "+short" ∧
        endsWithFlags cmd structuredOutputFlags = false) ∧
      (sh = false → endsWithFlags cmd structuredOutputFlags = true ∧
        endsWithFlags cmd ["+short"] = false) := by
  refine ⟨buildCommand (pyStrip d) (pyUpper (pyStrip rt)) ns rev tr sh,
    ?_, buildCommand_shape _ _ _ _ _ _, ?_, ?_, ?_⟩
  · unfold executeDigCommand
    rw [if_neg hd]
  · rw [buildCommand_shape]
    simp
  · intro hsh
    subst hsh
    rw [buildCommand_shape]
    simp only [if_true]
    rw [show (["dig"] ++ nsTokens ns ++
        (if rev then ["-x", pyStrip d]
         else [pyStrip d, pyUpper (pyStrip rt)]) ++
        (if tr then ["+trace"] else []) ++ ["+short"]) =
      ((["dig"] ++ nsTokens ns ++
        (if rev then ["-x", pyStrip d]
         else [pyStrip d, pyUpper (pyStrip rt)]) ++
        (if tr then ["+trace"] else [])) ++ ["+short"]) from rfl]
    exact ⟨List.getLast?_concat _, endsWithFlags_short_not_structured _⟩
  · intro hsh
    subst hsh
    rw [buildCommand_shape]
    simp only [Bool.false_eq_true, if_false]
    rw [show (["dig"] ++ nsTokens ns ++
        (if rev then ["-x", pyStrip d]
         else [pyStrip d, pyUpper (pyStrip rt)]) ++
        (if tr then ["+trace"] else []) ++ structuredOutputFlags) =
      ((["dig"] ++ nsTokens ns ++
        (if rev then ["-x", pyStrip d]
         else [pyStrip d, pyUpper (pyStrip rt)]) ++
        (if tr then ["+trace"] else [])) ++ structuredOutputFlags) from rfl]
    exact ⟨endsWithFlags_append _ _, endsWithFlags_structured_not_short _⟩

/-- Witness for claim C6 at a concrete query with a nameserver needing a
trim and a lowercase record type. -/
theorem C6_build_command_witness :
    ∃ cmd, executeDigCommand " example.com " " mx " (some " 8.8.8.8 ")
        false false false = some cmd ∧
      cmd = ["dig"] ++ nsTokens (some " 8.8.8.8 ") ++
        (if false then ["-x", pyStrip " example.com "]
         else [pyStrip " example.com ", pyUpper (pyStrip " mx ")]) ++
        (if false then ["+trace"] else []) ++
        (if false then ["+short"] else structuredOutputFlags) ∧
      cmd.head? = some "dig" ∧
      (false = true → cmd.getLast? = some "+short" ∧
        endsWithFlags cmd structuredOutputFlags = false) ∧
      (false = false → endsWithFlags cmd structuredOutputFlags = true ∧
        endsWithFlags cmd ["+short"] = false) :=
  C6_build_command " example.com " " mx " (some " 8.8.8.8 ")
    false false false (by decide)

/-- Characterisation of anchored matching as an append decomposition. -/
theorem leadsWith_iff {α : Type} [DecidableEq α] (p l : List α) :
    leadsWithL p l = true ↔ ∃ t, l = p ++ t := by
  induction p generalizing l with
  | nil => simp [leadsWithL]
  | cons x ps ih =>
    cases l with
    | nil => simp [leadsWithL]
    | cons y ys =>
      simp only [leadsWithL, Bool.and_eq_true, decide_eq_true_eq, ih,
        List.cons_append, List.cons.injEq]
      constructor
      · rintro ⟨rfl, t, rfl⟩
        exact ⟨t, rfl, rfl⟩
      · rintro ⟨t, rfl, rfl⟩
        exact ⟨rfl, t, rfl⟩

/-- Characterisation of substring containment as an append
decomposition. -/
theorem hasSubstr_iff {α : Type} [DecidableEq α] (p l : List α) :
    hasSubstrL p l = true ↔ ∃ a b, l = a ++ p ++ b := by
  induction l with
  | nil =>
    cases p with
    | nil => simp [hasSubstrL, leadsWithL]
    | cons c ps => simp [hasSubstrL, leadsWithL]
  | cons x xs ih =>
    simp only [hasSubstrL, Bool.or_eq_true, leadsWith_iff, ih]
    constructor
    · rintro (⟨t, ht⟩ | ⟨a, b, rfl⟩)
      · exact ⟨[], t, by simp [ht]⟩
      · exact ⟨x :: a, b, by simp⟩
    · rintro ⟨a, b, hab⟩
      cases a with
      | nil => exact Or.inl ⟨b, by simpa using hab⟩
      | cons a0 as =>
        simp only [List.cons_append, List.cons.injEq] at hab
        exact Or.inr ⟨as, b, hab.2⟩

/-- dropWhile stops no later than the head of an embedded block whose
first element fails the predicate. -/
theorem dropWhile_append_mid {α : Type} (q : α → Bool) (c : α)
    (p2 b : List α) (hc : q c = false) :
    ∀ a : List α, ∃ a2,
      ((a ++ (c :: p2) ++ b).dropWhile q) = a2 ++ (c :: p2) ++ b := by
  intro a
  induction a with
  | nil => exact ⟨[], by simp [List.dropWhile_cons, hc]⟩
  | cons x xs ih =>
    by_cases hx : q x
    · obtain ⟨a2, ha⟩ := ih
      refine ⟨a2, ?_⟩
      rw [show (x :: xs) ++ (c :: p2) ++ b = x :: (xs ++ (c :: p2) ++ b) by
        simp]
      rw [List.dropWhile_cons, if_pos hx]
      exact ha
    · exact ⟨x :: xs, by simp [List.dropWhile_cons, hx]⟩

/-- Stripping whitespace from both ends preserves an embedded block
whose first and last characters are not whitespace. -/
theorem stripList_mid (p a b : List Char)
    (hh : ∃ c p2, p = c :: p2 ∧ isPySpace c = false)
    (hl : ∃ c p2, p = p2 ++ [c] ∧ isPySpace c = false) :
    ∃ a2 b2, pyStripList (a ++ p ++ b) = a2 ++ p ++ b2 := by
  obtain ⟨c, p2, rfl, hc⟩ := hh
  obtain ⟨d, p3, hp3, hd⟩ := hl
  unfold pyStripList
  obtain ⟨a2, ha⟩ := dropWhile_append_mid isPySpace c p2 b hc a
  rw [ha, hp3]
  have hrev : (a2 ++ (p3 ++ [d]) ++ b).reverse =
      b.reverse ++ (d :: p3.reverse) ++ a2.reverse := by
    simp [List.reverse_append]
  rw [hrev]
  obtain ⟨b2, hb⟩ :=
    dropWhile_append_mid isPySpace d p3.reverse a2.reverse hd b.reverse
  rw [hb]
  refine ⟨a2, b2.reverse, ?_⟩
  simp [List.reverse_append, List.append_assoc]

/-- Lowering a character never changes whether it is whitespace. -/
theorem isPySpace_pyLowerChar (c : Char) :
    isPySpace (pyLowerChar c) = isPySpace c := by
  unfold pyLowerChar
  split <;> rfl

/-- dropWhile commutes with map along the composed predicate. -/
theorem dropWhileMap {α β : Type} (f : α → β) (q : β → Bool) (l : List α) :
    (l.map f).dropWhile q = (l.dropWhile (fun c => q (f c))).map f := by
  induction l with
  | nil => rfl
  | cons x xs ih =>
    by_cases hx : q (f x)
    · simp [List.dropWhile_cons, hx, ih]
    · simp [List.dropWhile_cons, hx]

/-- Stripping commutes with lowering. -/
theorem stripList_map_lower (l : List Char) :
    pyStripList (l.map pyLowerChar) = (pyStripList l).map pyLowerChar := by
  have hfun : (fun c => isPySpace (pyLowerChar c)) = isPySpace :=
    funext isPySpace_pyLowerChar
  unfold pyStripList
  rw [dropWhileMap, hfun, ← List.map_reverse, dropWhileMap, hfun,
    ← List.map_reverse]

/-- A substring with non-whitespace endpoints of the lowered stderr is
still a substring of the lowered stripped stderr. -/
theorem hasSubstr_lower_strip (stderr : String) (pat : List Char)
    (hc : ∃ c p2, pat = c :: p2 ∧ isPySpace c = false)
    (hd : ∃ c p2, pat = p2 ++ [c] ∧ isPySpace c = false)
    (h : hasSubstrL pat (pyLower stderr).data = true) :
    hasSubstrL pat (pyLower (pyStrip stderr)).data = true := by
  rw [hasSubstr_iff] at h
  obtain ⟨a, b, hab⟩ := h
  have hdata : (pyLower (pyStrip stderr)).data =
      pyStripList ((pyLower stderr).data) := by
    show (pyStripList stderr.data).map pyLowerChar =
      pyStripList (stderr.data.map pyLowerChar)
    exact (stripList_map_lower _).symm
  rw [hasSubstr_iff, hdata, hab]
  exact stripList_mid pat a b hc hd

/-- Claim C7 (amended to the callback-based executor): a failed process
with empty stdout whose stderr contains a known network-failure
substring (case-insensitively) is delivered as the clearer network
message by the threaded executor. -/
theorem C7_async_network_replacement (rc : Int) (stdout stderr : String)
    (hrc : ¬rc = 0) (hout : pyStrip stdout = "")
    (hsub : hasSubstrS (pyLower stderr) "network unreachable" = true ∨
            hasSubstrS (pyLower stderr) "connection timed out" = true) :
    processResultAsync rc stdout stderr = ("", some networkFailMsg) := by
  have hne : stderr ≠ "" := by
    intro h0
    subst h0
    rcases hsub with h | h <;> exact absurd h (by decide)
  have hcond :
      (hasSubstrS (pyLower (pyStrip stderr)) "network unreachable" ||
        hasSubstrS (pyLower (pyStrip stderr)) "connection timed out")
        = true := by
    rw [Bool.or_eq_true]
    rcases hsub with h | h
    · exact Or.inl (hasSubstr_lower_strip stderr _
        ⟨'n', _, rfl, by decide⟩
        ⟨'e', "network unreachabl".data, by decide, by decide⟩ h)
    · exact Or.inr (hasSubstr_lower_strip stderr _
        ⟨'c', _, rfl, by decide⟩
        ⟨'t', "connection timed ou".data, by decide, by decide⟩ h)
  unfold processResultAsync
  rw [if_neg hrc, if_neg (fun hh => hh hout)]
  unfold stderrMsg
  rw [if_neg hne]
  rw [if_pos hcond]

/-- Witness for the amended claim C7 at a concrete mixed-case stderr
with surrounding whitespace. -/
theorem C7_async_network_replacement_witness :
    processResultAsync 1 "" " Network Unreachable " =
      ("", some networkFailMsg) :=
  C7_async_network_replacement 1 "" " Network Unreachable " (by decide)
    (by decide) (Or.inl (by decide))

/-- Counterexample to claim C7 as stated: at the same failing process
result the synchronous variant returns the raw stderr-derived message,
not the clearer network message that the threaded executor delivers. -/
theorem C7_sync_keeps_raw_stderr :
    processResultSync 1 "" "network unreachable" =
      ("", some "dig command failed: network unreachable") ∧
    (processResultSync 1 "" "network unreachable").2 ≠
      some networkFailMsg ∧
    processResultAsync 1 "" "network unreachable" =
      ("", some networkFailMsg) :=
  ⟨by decide, by decide, by decide⟩

/-- The MX branch never lets an exception escape: its internal try
catches every kind it can raise. -/
theorem parseMXrecord_ok (n t c v : String) :
    ∃ o, parseMXrecord n t c v = .ok o := by
  unfold parseMXrecord
  rcases hs : pySplitOnce v with _ | ⟨p, _ | ⟨m, _ | ⟨x, r⟩⟩⟩ <;>
    simp only [hs]
  · exact ⟨none, rfl⟩
  · exact ⟨none, rfl⟩
  · rcases hp : pyIntParse p with _ | k <;> simp only [pyIntE, hp]
    · exact ⟨none, rfl⟩
    · rcases ht : pyIntParse t with _ | tt <;> simp only [ht]
      · exact ⟨none, rfl⟩
      · by_cases h1 : tt < 0
        · exact ⟨none, by simp [mkMXRecord, h1]⟩
        · by_cases h2 : k < 0
          · exact ⟨none, by simp [mkMXRecord, h1, h2]⟩
          · exact ⟨some ⟨rstripDot n, tt, c, .MX, rstripDot v,
              some ⟨k, rstripDot m⟩⟩, by simp [mkMXRecord, h1, h2]⟩
  · exact ⟨none, rfl⟩

/-- The generic branch raises only ValueError or ValidationError, never
TypeError. -/
theorem parseGenericRecord_no_typeError (n t c r v : String) :
    parseGenericRecord n t c r v ≠ .error .typeError := by
  unfold parseGenericRecord pyIntE mkRecordTypeE mkDNSRecord
  rcases hp : pyIntParse t with _ | k <;> simp only [hp]
  · simp
  · rcases hr : recordTypeOfString r with _ | rt <;> simp only [hr]
    · simp
    · by_cases h1 : k < 0 <;> simp [h1]

/-- parse_record_line never lets an exception escape: the record regex
either fails, or the construction raises only kinds that the
surrounding try catches. -/
theorem parseRecordLine_ok (line : String) :
    ∃ o, parseRecordLine line = .ok o := by
  unfold parseRecordLine
  rcases hm : matchRecordLine line.data with _ | ⟨n, t, c, r, v⟩ <;>
    simp only [hm]
  · exact ⟨none, rfl⟩
  · by_cases hr : r = "MX"
    · subst hr
      rw [if_pos rfl]
      obtain ⟨o, ho⟩ := parseMXrecord_ok n t c v
      rw [ho]
      exact ⟨o, rfl⟩
    · rw [if_neg hr]
      rcases hg : parseGenericRecord n t c r v with e | o
      · cases e
        · exact ⟨none, rfl⟩
        · exact ⟨none, rfl⟩
        · exact ⟨none, rfl⟩
        · exact absurd hg (parseGenericRecord_no_typeError n t c r v)
      · exact ⟨o, rfl⟩

/-- All records of a scan state, across the three sections. -/
def stateRecs (st : ParseState) : List DNSRecord :=
  st.ans ++ st.auth ++ st.addl

/-- One line step never fails, and any record of the new state was
either already present or produced by parsing this very line. -/
theorem processLine_ok (st : ParseState) (rawLine : String) :
    ∃ st2, processLine st rawLine = .ok st2 ∧
      ∀ r, r ∈ stateRecs st2 →
        r ∈ stateRecs st ∨
          parseRecordLine (pyStrip rawLine) = .ok (some r) := by
  unfold processLine
  split_ifs with h1 h2 h3 h4 h5
  · exact ⟨st, rfl, fun r hr => Or.inl hr⟩
  · exact ⟨st, rfl, fun r hr => Or.inl hr⟩
  · exact ⟨{ st with cur := some .answer }, rfl, fun r hr => Or.inl hr⟩
  · exact ⟨{ st with cur := some .authority }, rfl, fun r hr => Or.inl hr⟩
  · exact ⟨{ st with cur := some .additional }, rfl, fun r hr => Or.inl hr⟩
  · rcases hcur : st.cur with _ | sec
    · exact ⟨st, rfl, fun r hr => Or.inl hr⟩
    · obtain ⟨o, ho⟩ := parseRecordLine_ok (pyStrip rawLine)
      rw [ho]
      rcases o with _ | r0
      · exact ⟨st, rfl, fun r hr => Or.inl hr⟩
      · cases sec
        · refine ⟨⟨some .answer, st.ans ++ [r0], st.auth, st.addl⟩, rfl, ?_⟩
          intro r hr
          simp only [stateRecs, List.mem_append, List.mem_singleton] at hr ⊢
          tauto
        · refine ⟨⟨some .authority, st.ans, st.auth ++ [r0], st.addl⟩, rfl,
            ?_⟩
          intro r hr
          simp only [stateRecs, List.mem_append, List.mem_singleton] at hr ⊢
          tauto
        · refine ⟨⟨some .additional, st.ans, st.auth, st.addl ++ [r0]⟩, rfl,
            ?_⟩
          intro r hr
          simp only [stateRecs, List.mem_append, List.mem_singleton] at hr ⊢
          tauto

/-- The line loop never fails, and every record of the final state was
already present or came from some line of the input. -/
theorem parseLines_ok (lines : List String) :
    ∀ st, ∃ fin, parseLines lines st = .ok fin ∧
      ∀ r, r ∈ stateRecs fin →
        r ∈ stateRecs st ∨
          ∃ line ∈ lines, parseRecordLine (pyStrip line) = .ok (some r) := by
  induction lines with
  | nil => exact fun st => ⟨st, rfl, fun r hr => Or.inl hr⟩
  | cons l ls ih =>
    intro st
    obtain ⟨st2, h2, hrec2⟩ := processLine_ok st l
    obtain ⟨fin, hf, hrecf⟩ := ih st2
    refine ⟨fin, ?_, ?_⟩
    · unfold parseLines
      rw [h2]
      exact hf
    · intro r hr
      rcases hrecf r hr with h | ⟨line, hl, hp⟩
      · rcases hrec2 r h with h2m | hp2
        · exact Or.inl h2m
        · exact Or.inr ⟨l, List.mem_cons_self _ _, hp2⟩
      · exact Or.inr ⟨line, List.mem_cons_of_mem _ hl, hp⟩

/-- Claim C1: parse is total for every output, domain and record type
(no exception escapes: all construction failures are caught and dropped),
and every record appearing in any of the three sections of the result
was produced by successfully parsing one of the stripped input lines —
so blank lines, non-section comments, lines failing the record grammar,
unknown record types and non-numeric TTLs contribute nothing to any
section. -/
theorem C1_parse_total_and_drops (output domain record_type : String) :
    ∃ resp, parse output domain record_type = .ok resp ∧
      ∀ r, (r ∈ resp.answer_section ∨ r ∈ resp.authority_section ∨
            r ∈ resp.additional_section) →
        ∃ line ∈ (pyStrip output).splitOn "\n",
          parseRecordLine (pyStrip line) = .ok (some r) := by
  unfold parse
  by_cases h0 : pyStrip output = ""
  · rw [if_pos h0]
    refine ⟨_, rfl, ?_⟩
    intro r hr
    simp [mkDigResponse] at hr
  · rw [if_neg h0]
    obtain ⟨fin, hf, hrec⟩ :=
      parseLines_ok ((pyStrip output).splitOn "\n") ⟨none, [], [], []⟩
    rw [hf]
    refine ⟨_, rfl, ?_⟩
    intro r hr
    have hmem : r ∈ stateRecs fin := by
      simp only [mkDigResponse] at hr
      simp only [stateRecs, List.mem_append]
      tauto
    rcases hrec r hmem with h | h
    · simp [stateRecs] at h
    · exact h
